import Mathlib

/-!
Verification of the contact store (`scripts/contacts.py`) and the chat-id
fallback of the bot wrapper (`scripts/telegram_bot.py`) of the
telegram-bot-skill repository.

The store is a Python dict keyed by the lower-cased contact name, persisted
as a pretty-printed JSON document. We embed the dict as an association list
with Python-dict semantics (updating an existing key keeps its position, a
new key is appended; iteration order is insertion order), and the backing
file as the serialized string produced by `json.dumps(..., indent=2,
ensure_ascii=False)`.
-/

/-- A dynamically typed value passed as `chat_id`: Python callers hand either
a `str` or an `int`; `add` applies `str(...)` to it. -/
inductive PyVal where
  | s (v : String)
  | i (v : Int)
deriving Repr, DecidableEq

/-- Python `str(x)` for the values above. -/
def pyStr : PyVal → String
  | .s v => v
  | .i v => toString v

/-- Python `str.lower()` (code-point-wise lowering, ASCII as in `Char.toLower`). -/
def pyLower (s : String) : String :=
  ⟨s.data.map Char.toLower⟩

/-- Python `str.strip()`: drop whitespace from both ends. -/
def pyStrip (s : String) : String :=
  ⟨((s.data.dropWhile Char.isWhitespace).reverse.dropWhile Char.isWhitespace).reverse⟩

/-- Python `a or b` for an optional string `a`: `None` and `""` are falsy. -/
def pyOr (a : Option String) (b : String) : String :=
  match a with
  | some v => if v = "" then b else v
  | none => b

/-- Python substring test `q in s` on the underlying character lists. -/
def subList (q : List Char) (s : List Char) : Bool :=
  match s with
  | [] => q.isEmpty
  | _ :: rest => q.isPrefixOf s || subList q rest

/-- Python `q in s` for strings (contiguous substring containment). -/
def strIn (q : String) (s : String) : Bool :=
  subList q.data s.data

/-- One stored contact record: the value at a key of `self.contacts`. -/
structure Contact where
  name : String
  chat_id : String
  type : String
  title : Option String
deriving Repr, DecidableEq

/-- The in-memory dict `self.contacts`, in iteration (insertion) order. -/
abbrev Store := List (String × Contact)

/-- Python `k in d`. -/
def dictContains (k : String) : Store → Bool
  | [] => false
  | e :: rest => e.1 == k || dictContains k rest

/-- Python `d.get(k)` / `d[k]`. -/
def dictGet (k : String) : Store → Option Contact
  | [] => none
  | e :: rest => if e.1 = k then some e.2 else dictGet k rest

/-- Python `d[k] = v`: replace in place when the key exists, append otherwise. -/
def dictInsert (k : String) (v : Contact) : Store → Store
  | [] => [(k, v)]
  | e :: rest => if e.1 = k then (k, v) :: rest else e :: dictInsert k v rest

/-- Python `del d[k]` (on dict states the key occurs at most once). -/
def dictDelete (k : String) (s : Store) : Store :=
  s.filter (fun e => e.1 != k)

/-- Python `d.values()`. -/
def values (s : Store) : List Contact :=
  s.map Prod.snd

/-- Lowercase hex digit. -/
def hexDigit (n : Nat) : Char :=
  if n < 10 then Char.ofNat (48 + n) else Char.ofNat (87 + n)

/-- Four lowercase hex digits, as in Python's `\u%04x` escape. -/
def hex4 (n : Nat) : String :=
  ⟨[hexDigit (n / 4096 % 16), hexDigit (n / 256 % 16), hexDigit (n / 16 % 16), hexDigit (n % 16)]⟩

/-- JSON escaping of one character under `ensure_ascii=False`. -/
def jsonEscapeChar (c : Char) : String :=
  if c = '"' then "\\\""
  else if c = '\\' then "\\\\"
  else if c = '\n' then "\\n"
  else if c = '\r' then "\\r"
  else if c = '\t' then "\\t"
  else if c.toNat = 8 then "\\b"
  else if c.toNat = 12 then "\\f"
  else if c.toNat < 32 then "\\u" ++ hex4 c.toNat
  else String.singleton c

/-- JSON string literal for `s`. -/
def jsonStr (s : String) : String :=
  "\"" ++ String.join (s.data.map jsonEscapeChar) ++ "\""

/-- JSON rendering of an optional string (`None` becomes `null`). -/
def jsonOptStr : Option String → String
  | none => "null"
  | some v => jsonStr v

/-- One contact object as rendered inside the top-level document at
nesting depth 1 with `indent=2`. -/
def serializeContact (c : Contact) : String :=
  "\x7b\n    \"name\": " ++ jsonStr c.name ++
  ",\n    \"chat_id\": " ++ jsonStr c.chat_id ++
  ",\n    \"type\": " ++ jsonStr c.type ++
  ",\n    \"title\": " ++ jsonOptStr c.title ++ "\n  \x7d"

/-- `json.dumps(self.contacts, indent=2, ensure_ascii=False)`. -/
def serialize (s : Store) : String :=
  match s with
  | [] => "\x7b\x7d"
  | _ => "\x7b\n" ++
      String.intercalate ",\n"
        (s.map (fun e => "  " ++ jsonStr e.1 ++ ": " ++ serializeContact e.2)) ++
      "\n\x7d"

/-- A `ContactManager` instance: the in-memory dict plus the content of the
backing file `contacts.json`. -/
structure SysState where
  contacts : Store
  file : String
deriving Repr, DecidableEq

namespace ContactManager

/-- `_save`: rewrite the whole backing file from the in-memory dict. -/
def save (st : SysState) : SysState :=
  { st with file := serialize st.contacts }

/-- A fresh manager over an empty (absent) storage file. -/
def emptyState : SysState :=
  { contacts := [], file := serialize [] }

/-- `ContactManager.add`: store the record under `lower(name)` (keeping the
original casing in the `name` field, string-coercing `chat_id`), persist,
and report whether the key was previously absent. -/
def add (st : SysState) (name : String) (chat_id : PyVal)
    (chat_type : String) (title : Option String) : Bool × SysState :=
  let name_lower := pyLower name
  let is_new := !dictContains name_lower st.contacts
  let st' := save { st with
    contacts := dictInsert name_lower
      { name := name, chat_id := pyStr chat_id, type := chat_type, title := title }
      st.contacts }
  (is_new, st')

/-- `ContactManager.remove`: delete the entry at `lower(name)` when present
(persisting), otherwise leave everything untouched. -/
def remove (st : SysState) (name : String) : Bool × SysState :=
  let name_lower := pyLower name
  if dictContains name_lower st.contacts then
    (true, save { st with contacts := dictDelete name_lower st.contacts })
  else
    (false, st)

/-- `ContactManager.get_chat_id`: pure lookup of the `chat_id` field. -/
def get_chat_id (st : SysState) (name : String) : Option String :=
  let name_lower := pyLower name
  if dictContains name_lower st.contacts then
    (dictGet name_lower st.contacts).map Contact.chat_id
  else
    none

/-- `ContactManager.search`: iterate the dict in order, keeping contacts
whose key or lower-cased name contains the lower-cased query. -/
def searchGo (ql : String) : Store → List Contact
  | [] => []
  | e :: rest =>
    if strIn ql e.1 || strIn ql (pyLower e.2.name) then
      e.2 :: searchGo ql rest
    else
      searchGo ql rest

/-- `ContactManager.search` entry point. -/
def search (st : SysState) (query : String) : List Contact :=
  searchGo (pyLower query) st.contacts

/-- Boolean `≤` on char lists by code point: Python string comparison. -/
def listLe (a : List Char) (b : List Char) : Bool :=
  match a, b with
  | [], _ => true
  | _ :: _, [] => false
  | x :: xs, y :: ys =>
    if x.toNat < y.toNat then true
    else if y.toNat < x.toNat then false
    else listLe xs ys

/-- The sort key comparison of `list_all`: `x["name"].lower()`. -/
def nameLe (a : Contact) (b : Contact) : Bool :=
  listLe (pyLower a.name).data (pyLower b.name).data

/-- `ContactManager.list_all`: `sorted(self.contacts.values(), key=lambda x:
x["name"].lower())` — a stable sort, as Python's. -/
def list_all (st : SysState) : List Contact :=
  (values st.contacts).mergeSort nameLe

/-- The `chat` object of one entry of the imported chat list. -/
structure ChatObj where
  id : PyVal
  type : String
  first_name : Option String
  last_name : Option String
  username : Option String
  title : Option String
deriving Repr, DecidableEq

/-- One element of the list handed to `import_from_chats`. -/
structure ChatInfo where
  chat : ChatObj
deriving Repr, DecidableEq

/-- The friendly name derived for an imported chat (lines 124-130 of
`contacts.py`). -/
def derive_name (chat : ChatObj) : String :=
  if chat.type = "private" then
    pyOr chat.first_name (pyOr chat.username ("User_" ++ pyStr chat.id))
  else
    pyOr chat.title (chat.type ++ "_" ++ pyStr chat.id)

/-- The title derived for an imported chat (lines 127 and 131). -/
def derive_title (chat : ChatObj) : Option String :=
  if chat.type = "private" then
    some (pyStrip (chat.first_name.getD "" ++ " " ++ chat.last_name.getD ""))
  else
    chat.title

/-- The loop body of `import_from_chats`, with the running `imported` count. -/
def importGo (st : SysState) (chats : List ChatInfo) (imported : Nat) : Nat × SysState :=
  match chats with
  | [] => (imported, st)
  | ci :: rest =>
    let chat := ci.chat
    let name := derive_name chat
    if get_chat_id st name = none then
      importGo (add st name (.s (pyStr chat.id)) chat.type (derive_title chat)).2
        rest (imported + 1)
    else
      importGo st rest imported

/-- `ContactManager.import_from_chats`. -/
def import_from_chats (st : SysState) (chats : List ChatInfo) : Nat × SysState :=
  importGo st chats 0

end ContactManager

/-- Error classes surfaced by the send operations: `configError` models the
`ValueError` raised before any remote call, `remoteError` a re-raised
`TelegramError`, `fileNotFound` a re-raised `FileNotFoundError`. -/
inductive BotError where
  | configError (msg : String)
  | remoteError (msg : String)
  | fileNotFound (path : String)
deriving Repr, DecidableEq

/-- The wrapper state relevant to chat-id resolution: `self.default_chat_id`
read from `DEFAULT_CHAT_ID` at construction. -/
structure TelegramBotWrapper where
  default_chat_id : Option String
deriving Repr, DecidableEq

namespace TelegramBotWrapper

/-- `send_message`: resolve the chat id (explicit, else default, else raise
`ValueError`), then issue the remote call.  The oracle `remote` stands for
`self.bot.send_message`, yielding a message id or a `TelegramError` text. -/
def send_message (bot : TelegramBotWrapper)
    (remote : String → String → Except String Nat)
    (text : String) (chat_id : Option String) : Except BotError Nat :=
  let cid : Option String :=
    match chat_id with
    | none => bot.default_chat_id
    | some c => some c
  match cid with
  | none => .error (.configError "No chat_id provided and no default chat_id set")
  | some c =>
    match remote c text with
    | .ok m => .ok m
    | .error e => .error (.remoteError e)

/-- `send_photo`: same chat-id resolution, then `open(photo_path)` (the
oracle `fileExists` stands for the filesystem) and the remote call. -/
def send_photo (bot : TelegramBotWrapper)
    (fileExists : String → Bool)
    (remote : String → String → Option String → Except String Nat)
    (photo_path : String) (chat_id : Option String) (caption : Option String) :
    Except BotError Nat :=
  let cid : Option String :=
    match chat_id with
    | none => bot.default_chat_id
    | some c => some c
  match cid with
  | none => .error (.configError "No chat_id provided and no default chat_id set")
  | some c =>
    if fileExists photo_path then
      match remote c photo_path caption with
      | .ok m => .ok m
      | .error e => .error (.remoteError e)
    else
      .error (.fileNotFound photo_path)

/-- `send_document`: identical shape to `send_photo`. -/
def send_document (bot : TelegramBotWrapper)
    (fileExists : String → Bool)
    (remote : String → String → Option String → Except String Nat)
    (document_path : String) (chat_id : Option String) (caption : Option String) :
    Except BotError Nat :=
  let cid : Option String :=
    match chat_id with
    | none => bot.default_chat_id
    | some c => some c
  match cid with
  | none => .error (.configError "No chat_id provided and no default chat_id set")
  | some c =>
    if fileExists document_path then
      match remote c document_path caption with
      | .ok m => .ok m
      | .error e => .error (.remoteError e)
    else
      .error (.fileNotFound document_path)

end TelegramBotWrapper

/-- Well-formedness of a dict state: every entry's key is the lower-casing
of its stored display name. -/
def StoreWF (s : Store) : Prop :=
  ∀ e ∈ s, e.1 = pyLower e.2.name

/-- Keys are pairwise distinct (true of every Python dict state). -/
def keysNodup (s : Store) : Prop :=
  (s.map Prod.fst).Nodup

/-- States reachable from a fresh manager over an absent storage file by the
mutating operations. -/
inductive Reachable : SysState → Prop where
  | start : Reachable ContactManager.emptyState
  | addStep (st : SysState) (n : String) (c : PyVal) (ty : String) (ti : Option String) :
      Reachable st → Reachable (ContactManager.add st n c ty ti).2
  | removeStep (st : SysState) (n : String) :
      Reachable st → Reachable (ContactManager.remove st n).2
  | importStep (st : SysState) (chats : List ContactManager.ChatInfo) :
      Reachable st → Reachable (ContactManager.import_from_chats st chats).2

theorem dictGet_insert_self (k : String) (v : Contact) (s : Store) :
    dictGet k (dictInsert k v s) = some v := by
  induction s with
  | nil => simp [dictInsert, dictGet]
  | cons e rest ih =>
    by_cases h : e.1 = k
    · simp [dictInsert, dictGet, h]
    · simp [dictInsert, dictGet, h, ih]

theorem dictGet_insert_ne (k k' : String) (v : Contact) (s : Store) (h : k' ≠ k) :
    dictGet k' (dictInsert k v s) = dictGet k' s := by
  induction s with
  | nil => simp [dictInsert, dictGet, Ne.symm h]
  | cons e rest ih =>
    by_cases he : e.1 = k
    · subst he
      simp [dictInsert, dictGet, Ne.symm h]
    · simp [dictInsert, dictGet, he, ih]

theorem dictContains_eq_isSome (k : String) (s : Store) :
    dictContains k s = (dictGet k s).isSome := by
  induction s with
  | nil => rfl
  | cons e rest ih =>
    by_cases h : e.1 = k <;> simp [dictContains, dictGet, beq_iff_eq, h, ih]

theorem dictInsert_of_not_contains (k : String) (v : Contact) (s : Store)
    (h : dictContains k s = false) : dictInsert k v s = s ++ [(k, v)] := by
  induction s with
  | nil => rfl
  | cons e rest ih =>
    simp only [dictContains, Bool.or_eq_false_iff, beq_eq_false_iff_ne, ne_eq] at h
    simp [dictInsert, h.1, ih h.2]

theorem dictDelete_of_not_contains (k : String) (s : Store)
    (h : dictContains k s = false) : dictDelete k s = s := by
  induction s with
  | nil => rfl
  | cons e rest ih =>
    simp only [dictContains, Bool.or_eq_false_iff, beq_eq_false_iff_ne, ne_eq] at h
    have h2 : dictDelete k rest = rest := ih h.2
    unfold dictDelete at h2 ⊢
    rw [List.filter_cons]
    have hb : (e.1 != k) = true := by simp [bne, h.1]
    rw [if_pos hb, h2]

theorem dictDelete_append_self (k : String) (v : Contact) (s : Store)
    (h : dictContains k s = false) :
    dictDelete k (s ++ [(k, v)]) = s := by
  have h1 := dictDelete_of_not_contains k s h
  simp only [dictDelete, List.filter_append] at *
  simp [h1]

example : pyLower "AbC dE" = "abc de" := by decide
example : pyStrip " John  Doe " = "John  Doe" := by decide
example : strIn "jo" "john smith" = true := by decide
example : strIn "xyz" "joanna" = false := by decide
example : serialize [("john", { name := "John", chat_id := "111", type := "private", title := none })] =
    "\x7b\n  \"john\": \x7b\n    \"name\": \"John\",\n    \"chat_id\": \"111\",\n    \"type\": \"private\",\n    \"title\": null\n  \x7d\n\x7d" := by decide

theorem dictContains_insert_self (k : String) (v : Contact) (s : Store) :
    dictContains k (dictInsert k v s) = true := by
  rw [dictContains_eq_isSome, dictGet_insert_self]
  rfl

theorem dictGet_delete_self (k : String) (s : Store) :
    dictGet k (dictDelete k s) = none := by
  induction s with
  | nil => rfl
  | cons e rest ih =>
    by_cases h : e.1 = k
    · simpa [dictDelete, List.filter_cons, bne, h] using ih
    · have hb : (e.1 != k) = true := by simp [bne, h]
      simp only [dictDelete, List.filter_cons, hb, if_pos]
      simpa [dictGet, h, dictDelete] using ih

theorem dictGet_delete_ne (k k' : String) (s : Store) (h : k' ≠ k) :
    dictGet k' (dictDelete k s) = dictGet k' s := by
  induction s with
  | nil => rfl
  | cons e rest ih =>
    by_cases he : e.1 = k
    · subst he
      simpa [dictDelete, List.filter_cons, bne, dictGet, Ne.symm h] using ih
    · have hb : (e.1 != k) = true := by simp [bne, he]
      by_cases he' : e.1 = k'
      · simp only [dictDelete, List.filter_cons, hb, if_pos]
        simp [dictGet, he']
      · simp only [dictDelete, List.filter_cons, hb, if_pos]
        simpa [dictGet, he', dictDelete] using ih

theorem dictDelete_insert_self (k : String) (v : Contact) (s : Store)
    (h : dictContains k s = false) :
    dictDelete k (dictInsert k v s) = s := by
  rw [dictInsert_of_not_contains _ _ _ h]
  exact dictDelete_append_self _ _ _ h

/-- C1: `add(name, chat_id, type, title)` replaces the entry at
`key = lower(name)` by a record keeping the argument's casing in `name` and
the new `chat_id`/`type`/`title`, leaves every other key untouched, and
returns `true` exactly when the key was absent; on the empty store,
`add("John","111")` returns `true` and a subsequent `add("john","222")`
returns `false` with the entry's chat id now `"222"`. -/
theorem add_overwrites_at_key_and_reports_new :
    (∀ (st : SysState) (name : String) (cid : PyVal) (ty : String) (ti : Option String),
      (ContactManager.add st name cid ty ti).1 = !dictContains (pyLower name) st.contacts ∧
      dictGet (pyLower name) (ContactManager.add st name cid ty ti).2.contacts =
        some { name := name, chat_id := pyStr cid, type := ty, title := ti } ∧
      ∀ k, k ≠ pyLower name →
        dictGet k (ContactManager.add st name cid ty ti).2.contacts =
          dictGet k st.contacts) ∧
    (ContactManager.add ContactManager.emptyState "John" (.s "111") "private" none).1 = true ∧
    (ContactManager.add
      (ContactManager.add ContactManager.emptyState "John" (.s "111") "private" none).2
      "john" (.s "222") "private" none).1 = false ∧
    ContactManager.get_chat_id
      (ContactManager.add
        (ContactManager.add ContactManager.emptyState "John" (.s "111") "private" none).2
        "john" (.s "222") "private" none).2 "john" = some "222" := by
  refine ⟨?_, by decide, by decide, by decide⟩
  intro st name cid ty ti
  refine ⟨rfl, ?_, ?_⟩
  · simp [ContactManager.add, ContactManager.save, dictGet_insert_self]
  · intro k hk
    simp [ContactManager.add, ContactManager.save, dictGet_insert_ne _ _ _ _ hk]

theorem add_overwrites_at_key_and_reports_new_witness :
    dictGet "x"
      (ContactManager.add ContactManager.emptyState "John" (.s "111") "private" none).2.contacts =
      dictGet "x" ContactManager.emptyState.contacts :=
  (add_overwrites_at_key_and_reports_new.1
    ContactManager.emptyState "John" (.s "111") "private" none).2.2 "x" (by decide)

/-- C4: the key is case-insensitive: for any two names with equal
lower-casings, adding under the first and looking up under the second
returns the chat id just stored. -/
theorem get_chat_id_case_insensitive (st : SysState) (n1 n2 : String) (c : PyVal)
    (ty : String) (ti : Option String) (h : pyLower n1 = pyLower n2) :
    ContactManager.get_chat_id (ContactManager.add st n1 c ty ti).2 n2 = some (pyStr c) := by
  have hg : dictGet (pyLower n2) (ContactManager.add st n1 c ty ti).2.contacts =
      some { name := n1, chat_id := pyStr c, type := ty, title := ti } := by
    rw [← h]
    simp [ContactManager.add, ContactManager.save, dictGet_insert_self]
  simp [ContactManager.get_chat_id, dictContains_eq_isSome, hg]

theorem get_chat_id_case_insensitive_witness :
    ContactManager.get_chat_id
      (ContactManager.add ContactManager.emptyState "JoHn" (.s "111") "private" none).2
      "JOHN" = some "111" :=
  get_chat_id_case_insensitive ContactManager.emptyState "JoHn" "JOHN" (.s "111")
    "private" none (by decide)

/-- C7: `remove(name)` deletes the entry at `lower(name)` when present and
returns `true`, persisting the shrunken store with every other key
untouched; when absent it returns `false` and leaves both the in-memory
dict and the backing file exactly as they were. -/
theorem remove_deletes_iff_present (st : SysState) (n : String) :
    (dictContains (pyLower n) st.contacts = true →
      (ContactManager.remove st n).1 = true ∧
      dictGet (pyLower n) (ContactManager.remove st n).2.contacts = none ∧
      (∀ k, k ≠ pyLower n →
        dictGet k (ContactManager.remove st n).2.contacts = dictGet k st.contacts) ∧
      (ContactManager.remove st n).2.file =
        serialize (ContactManager.remove st n).2.contacts) ∧
    (dictContains (pyLower n) st.contacts = false →
      (ContactManager.remove st n).1 = false ∧
      (ContactManager.remove st n).2 = st) := by
  constructor
  · intro h
    refine ⟨?_, ?_, ?_, ?_⟩
    · simp [ContactManager.remove, h]
    · simp [ContactManager.remove, h, ContactManager.save, dictGet_delete_self]
    · intro k hk
      simp [ContactManager.remove, h, ContactManager.save, dictGet_delete_ne _ _ _ hk]
    · simp [ContactManager.remove, h, ContactManager.save]
  · intro h
    constructor <;> simp [ContactManager.remove, h]

theorem remove_deletes_iff_present_witness :
    ContactManager.remove ContactManager.emptyState "ghost" = (false, ContactManager.emptyState) := by
  have h := (remove_deletes_iff_present ContactManager.emptyState "ghost").2 (by decide)
  exact Prod.ext h.1 h.2

/-- C2 as stated is false: when `lower(name)` is already a key, `add`
overwrites the pre-existing entry and the subsequent `remove` deletes it,
so the store does not return to its prior state.  Concretely, starting from
the store holding `john ↦ 111`, `add("John","222")` then `remove("John")`
yields the empty store. -/
theorem add_remove_roundtrip_counterexample :
    ¬ ((ContactManager.remove
        (ContactManager.add
          (ContactManager.add ContactManager.emptyState "john" (.s "111") "private" none).2
          "John" (.s "222") "private" none).2 "John").2 =
      (ContactManager.add ContactManager.emptyState "john" (.s "111") "private" none).2) := by
  decide

/-- C2 amended: when `lower(name)` is not already a key of the store,
`add(name, ...)` followed by `remove(name)` restores the in-memory mapping
exactly; and when the backing file was additionally in sync with the
mapping, the whole state (file included) is restored. -/
theorem add_remove_roundtrip (st : SysState) (name : String) (cid : PyVal)
    (ty : String) (ti : Option String)
    (h : dictContains (pyLower name) st.contacts = false) :
    (ContactManager.remove (ContactManager.add st name cid ty ti).2 name).2.contacts =
      st.contacts ∧
    (st.file = serialize st.contacts →
      (ContactManager.remove (ContactManager.add st name cid ty ti).2 name).2 = st) := by
  have hdel : dictDelete (pyLower name)
      (dictInsert (pyLower name)
        { name := name, chat_id := pyStr cid, type := ty, title := ti } st.contacts) =
      st.contacts := dictDelete_insert_self _ _ _ h
  have hcon : dictContains (pyLower name)
      (dictInsert (pyLower name)
        { name := name, chat_id := pyStr cid, type := ty, title := ti } st.contacts) = true :=
    dictContains_insert_self _ _ _
  constructor
  · simp [ContactManager.remove, hcon, ContactManager.add, ContactManager.save, hdel]
  · intro hf
    cases st with
    | mk contacts file =>
      simp only at hf
      simp [ContactManager.remove, hcon, ContactManager.add, ContactManager.save, hdel, hf]

theorem add_remove_roundtrip_witness :
    (ContactManager.remove
      (ContactManager.add ContactManager.emptyState "John" (.s "111") "private" none).2
      "John").2 = ContactManager.emptyState :=
  (add_remove_roundtrip ContactManager.emptyState "John" (.s "111") "private" none
    (by decide)).2 (by decide)

theorem importGo_file_sync (chats : List ContactManager.ChatInfo) :
    ∀ (st : SysState) (n : Nat), st.file = serialize st.contacts →
      (ContactManager.importGo st chats n).2.file =
        serialize (ContactManager.importGo st chats n).2.contacts := by
  induction chats with
  | nil =>
    intro st n h
    simpa [ContactManager.importGo] using h
  | cons ci rest ih =>
    intro st n h
    by_cases hg : ContactManager.get_chat_id st (ContactManager.derive_name ci.chat) = none
    · simp only [ContactManager.importGo, hg, if_pos]
      exact ih _ _ rfl
    · simp only [ContactManager.importGo, hg, if_neg, ite_false]
      exact ih st n h

/-- C6: every mutation that changes the store rewrites the backing file to
the JSON serialization of the whole in-memory dict as part of the
operation: unconditionally after `add`, after a `remove` that deletes, and
throughout an import (each addition saves, so a file in sync with the dict
stays in sync across `import_from_chats`). -/
theorem mutations_persist_synchronously :
    (∀ (st : SysState) (name : String) (cid : PyVal) (ty : String) (ti : Option String),
      (ContactManager.add st name cid ty ti).2.file =
        serialize (ContactManager.add st name cid ty ti).2.contacts) ∧
    (∀ (st : SysState) (n : String), dictContains (pyLower n) st.contacts = true →
      (ContactManager.remove st n).2.file =
        serialize (ContactManager.remove st n).2.contacts) ∧
    (∀ (st : SysState) (chats : List ContactManager.ChatInfo),
      st.file = serialize st.contacts →
      (ContactManager.import_from_chats st chats).2.file =
        serialize (ContactManager.import_from_chats st chats).2.contacts) := by
  refine ⟨?_, ?_, ?_⟩
  · intro st name cid ty ti
    rfl
  · intro st n h
    simp [ContactManager.remove, h, ContactManager.save]
  · intro st chats h
    exact importGo_file_sync chats st 0 h

theorem mutations_persist_synchronously_witness :
    (ContactManager.remove
      (ContactManager.add ContactManager.emptyState "John" (.s "111") "private" none).2
      "john").2.file =
      serialize (ContactManager.remove
        (ContactManager.add ContactManager.emptyState "John" (.s "111") "private" none).2
        "john").2.contacts :=
  mutations_persist_synchronously.2.1
    (ContactManager.add ContactManager.emptyState "John" (.s "111") "private" none).2
    "john" (by decide)

theorem listLe_cons_iff (x y : Char) (xs ys : List Char) :
    ContactManager.listLe (x :: xs) (y :: ys) = true ↔
      (x.toNat < y.toNat ∨ (x.toNat = y.toNat ∧ ContactManager.listLe xs ys = true)) := by
  simp only [ContactManager.listLe]
  split_ifs with h1 h2
  · simp [h1]
  · simp only [Bool.false_eq_true, false_iff]
    rintro (h | ⟨h, _⟩) <;> omega
  · constructor
    · intro h
      exact Or.inr ⟨by omega, h⟩
    · rintro (h | ⟨h, hle⟩)
      · omega
      · exact hle

theorem listLe_trans (a : List Char) :
    ∀ b c, ContactManager.listLe a b = true → ContactManager.listLe b c = true → ContactManager.listLe a c = true := by
  induction a with
  | nil => intro b c _ _; rfl
  | cons x xs ih =>
    intro b c hab hbc
    cases b with
    | nil => simp [ContactManager.listLe] at hab
    | cons y ys =>
      cases c with
      | nil => simp [ContactManager.listLe] at hbc
      | cons z zs =>
        rw [listLe_cons_iff] at hab hbc ⊢
        rcases hab with h1 | ⟨h1, h1'⟩ <;> rcases hbc with h2 | ⟨h2, h2'⟩
        · exact Or.inl (by omega)
        · exact Or.inl (by omega)
        · exact Or.inl (by omega)
        · exact Or.inr ⟨by omega, ih ys zs h1' h2'⟩

theorem listLe_total (a : List Char) : ∀ b, (ContactManager.listLe a b || ContactManager.listLe b a) = true := by
  induction a with
  | nil => intro b; rfl
  | cons x xs ih =>
    intro b
    cases b with
    | nil => rfl
    | cons y ys =>
      rw [Bool.or_eq_true]
      rcases Nat.lt_trichotomy x.toNat y.toNat with h | h | h
      · exact Or.inl ((listLe_cons_iff _ _ _ _).mpr (Or.inl h))
      · have h2 := ih ys
        rw [Bool.or_eq_true] at h2
        rcases h2 with h' | h'
        · exact Or.inl ((listLe_cons_iff _ _ _ _).mpr (Or.inr ⟨h, h'⟩))
        · exact Or.inr ((listLe_cons_iff _ _ _ _).mpr (Or.inr ⟨h.symm, h'⟩))
      · exact Or.inr ((listLe_cons_iff _ _ _ _).mpr (Or.inl h))

/-- C8: `list_all` returns all stored contacts (a permutation of the dict's
values) sorted by the `name` field compared case-insensitively, whatever
the insertion order of the underlying store was. -/
theorem list_all_sorted_case_insensitive (st : SysState) :
    (ContactManager.list_all st).Perm (values st.contacts) ∧
    (ContactManager.list_all st).Pairwise
      (fun a b => ContactManager.nameLe a b = true) := by
  constructor
  · exact List.mergeSort_perm _ _
  · have htrans : ∀ a b c : Contact, ContactManager.nameLe a b = true →
        ContactManager.nameLe b c = true → ContactManager.nameLe a c = true :=
      fun a b c hab hbc => listLe_trans _ _ _ hab hbc
    have htot : ∀ a b : Contact,
        (ContactManager.nameLe a b || ContactManager.nameLe b a) = true :=
      fun a b => listLe_total _ _
    exact List.sorted_mergeSort htrans htot (values st.contacts)

theorem searchGo_eq_filter (ql : String) (s : Store) :
    ContactManager.searchGo ql s =
      (s.filter (fun e => strIn ql e.1 || strIn ql (pyLower e.2.name))).map Prod.snd := by
  induction s with
  | nil => rfl
  | cons e rest ih =>
    by_cases h : (strIn ql e.1 || strIn ql (pyLower e.2.name)) = true
    · simp [ContactManager.searchGo, List.filter_cons, h, ih]
    · simp [ContactManager.searchGo, List.filter_cons, h, ih]

/-- C9: `search(query)` returns exactly the contacts whose normalized key or
lower-cased name contains the lower-cased query as a substring, in store
iteration (insertion) order — a subsequence of the values, not sorted; on
the store holding "John Smith" then "Joanna", `search("jo")` returns both
and `search("xyz")` returns nothing. -/
theorem search_matches_key_or_name :
    (∀ (st : SysState) (query : String),
      ContactManager.search st query =
        (st.contacts.filter (fun e =>
          strIn (pyLower query) e.1 || strIn (pyLower query) (pyLower e.2.name))).map
          Prod.snd ∧
      (ContactManager.search st query).Sublist (values st.contacts)) ∧
    ContactManager.search
      (ContactManager.add
        (ContactManager.add ContactManager.emptyState "John Smith" (.s "1") "private" none).2
        "Joanna" (.s "2") "private" none).2 "jo" =
      [{ name := "John Smith", chat_id := "1", type := "private", title := none },
       { name := "Joanna", chat_id := "2", type := "private", title := none }] ∧
    ContactManager.search
      (ContactManager.add
        (ContactManager.add ContactManager.emptyState "John Smith" (.s "1") "private" none).2
        "Joanna" (.s "2") "private" none).2 "xyz" = [] := by
  refine ⟨?_, by decide, by decide⟩
  intro st query
  constructor
  · exact searchGo_eq_filter (pyLower query) st.contacts
  · rw [ContactManager.search, searchGo_eq_filter]
    exact List.Sublist.map Prod.snd (List.filter_sublist st.contacts)

/-- C5: each send operation falls back to the configured default chat id
when no explicit one is given (the call is then identical to an explicit
call with the default), and when neither is available it returns the
configuration error — a distinct error class from `remoteError`, produced
for every remote/filesystem oracle alike, so no remote call is issued. -/
theorem send_ops_default_chat_id :
    (∀ (bot : TelegramBotWrapper) (remote : String → String → Except String Nat)
        (text d : String), bot.default_chat_id = some d →
      TelegramBotWrapper.send_message bot remote text none =
        TelegramBotWrapper.send_message bot remote text (some d)) ∧
    (∀ (bot : TelegramBotWrapper) (remote : String → String → Except String Nat)
        (text : String), bot.default_chat_id = none →
      TelegramBotWrapper.send_message bot remote text none =
        .error (.configError "No chat_id provided and no default chat_id set")) ∧
    (∀ (bot : TelegramBotWrapper) (fileExists : String → Bool)
        (remote : String → String → Option String → Except String Nat)
        (path d : String) (caption : Option String), bot.default_chat_id = some d →
      TelegramBotWrapper.send_photo bot fileExists remote path none caption =
        TelegramBotWrapper.send_photo bot fileExists remote path (some d) caption) ∧
    (∀ (bot : TelegramBotWrapper) (fileExists : String → Bool)
        (remote : String → String → Option String → Except String Nat)
        (path : String) (caption : Option String), bot.default_chat_id = none →
      TelegramBotWrapper.send_photo bot fileExists remote path none caption =
        .error (.configError "No chat_id provided and no default chat_id set")) ∧
    (∀ (bot : TelegramBotWrapper) (fileExists : String → Bool)
        (remote : String → String → Option String → Except String Nat)
        (path d : String) (caption : Option String), bot.default_chat_id = some d →
      TelegramBotWrapper.send_document bot fileExists remote path none caption =
        TelegramBotWrapper.send_document bot fileExists remote path (some d) caption) ∧
    (∀ (bot : TelegramBotWrapper) (fileExists : String → Bool)
        (remote : String → String → Option String → Except String Nat)
        (path : String) (caption : Option String), bot.default_chat_id = none →
      TelegramBotWrapper.send_document bot fileExists remote path none caption =
        .error (.configError "No chat_id provided and no default chat_id set")) := by
  refine ⟨?_, ?_, ?_, ?_, ?_, ?_⟩
  · intro bot remote text d h
    simp [TelegramBotWrapper.send_message, h]
  · intro bot remote text h
    simp [TelegramBotWrapper.send_message, h]
  · intro bot fileExists remote path d caption h
    simp [TelegramBotWrapper.send_photo, h]
  · intro bot fileExists remote path caption h
    simp [TelegramBotWrapper.send_photo, h]
  · intro bot fileExists remote path d caption h
    simp [TelegramBotWrapper.send_document, h]
  · intro bot fileExists remote path caption h
    simp [TelegramBotWrapper.send_document, h]

theorem send_ops_default_chat_id_witness :
    TelegramBotWrapper.send_message { default_chat_id := none } (fun _ _ => .ok 0) "hi" none =
      .error (.configError "No chat_id provided and no default chat_id set") :=
  send_ops_default_chat_id.2.1 { default_chat_id := none } (fun _ _ => .ok 0) "hi" rfl

theorem get_chat_id_eq_none_iff (st : SysState) (n : String) :
    (ContactManager.get_chat_id st n = none) ↔
      dictContains (pyLower n) st.contacts = false := by
  cases hb : dictContains (pyLower n) st.contacts
  · simp [ContactManager.get_chat_id, hb]
  · have hb' := hb
    rw [dictContains_eq_isSome] at hb'
    obtain ⟨v, hv⟩ := Option.isSome_iff_exists.mp hb'
    simp [ContactManager.get_chat_id, hb, hv]

theorem importGo_front (chats : List ContactManager.ChatInfo) :
    ∀ (st : SysState) (n : Nat),
      st.contacts <+: (ContactManager.importGo st chats n).2.contacts := by
  induction chats with
  | nil =>
    intro st n
    exact List.prefix_rfl
  | cons ci rest ih =>
    intro st n
    by_cases hg : ContactManager.get_chat_id st (ContactManager.derive_name ci.chat) = none
    · simp only [ContactManager.importGo, hg, if_pos]
      refine List.IsPrefix.trans ?_ (ih _ _)
      have hc : dictContains (pyLower (ContactManager.derive_name ci.chat)) st.contacts
          = false := (get_chat_id_eq_none_iff _ _).mp hg
      have : (ContactManager.add st (ContactManager.derive_name ci.chat)
          (.s (pyStr ci.chat.id)) ci.chat.type
          (ContactManager.derive_title ci.chat)).2.contacts =
          st.contacts ++ [(pyLower (ContactManager.derive_name ci.chat),
            { name := ContactManager.derive_name ci.chat,
              chat_id := pyStr ci.chat.id, type := ci.chat.type,
              title := ContactManager.derive_title ci.chat })] := by
        simp [ContactManager.add, ContactManager.save, pyStr,
          dictInsert_of_not_contains _ _ _ hc]
      rw [this]
      exact List.prefix_append _ _
    · simp only [ContactManager.importGo, hg, ite_false]
      exact ih st n

theorem importGo_length (chats : List ContactManager.ChatInfo) :
    ∀ (st : SysState) (n : Nat),
      (ContactManager.importGo st chats n).2.contacts.length + n =
        st.contacts.length + (ContactManager.importGo st chats n).1 := by
  induction chats with
  | nil =>
    intro st n
    rfl
  | cons ci rest ih =>
    intro st n
    by_cases hg : ContactManager.get_chat_id st (ContactManager.derive_name ci.chat) = none
    · simp only [ContactManager.importGo, hg, if_pos]
      have hc : dictContains (pyLower (ContactManager.derive_name ci.chat)) st.contacts
          = false := (get_chat_id_eq_none_iff _ _).mp hg
      have hlen : (ContactManager.add st (ContactManager.derive_name ci.chat)
          (.s (pyStr ci.chat.id)) ci.chat.type
          (ContactManager.derive_title ci.chat)).2.contacts.length =
          st.contacts.length + 1 := by
        simp [ContactManager.add, ContactManager.save,
          dictInsert_of_not_contains _ _ _ hc]
      have h2 := ih (ContactManager.add st (ContactManager.derive_name ci.chat)
        (.s (pyStr ci.chat.id)) ci.chat.type (ContactManager.derive_title ci.chat)).2 (n + 1)
      omega
    · simp only [ContactManager.importGo, hg, ite_false]
      exact ih st n

theorem not_mem_keys_of_not_contains (k : String) (s : Store)
    (h : dictContains k s = false) : k ∉ s.map Prod.fst := by
  induction s with
  | nil => simp
  | cons e rest ih =>
    simp only [dictContains, Bool.or_eq_false_iff, beq_eq_false_iff_ne, ne_eq] at h
    simp [ih h.2, Ne.symm h.1]

theorem importGo_keysNodup (chats : List ContactManager.ChatInfo) :
    ∀ (st : SysState) (n : Nat), keysNodup st.contacts →
      keysNodup (ContactManager.importGo st chats n).2.contacts := by
  induction chats with
  | nil =>
    intro st n h
    exact h
  | cons ci rest ih =>
    intro st n h
    by_cases hg : ContactManager.get_chat_id st (ContactManager.derive_name ci.chat) = none
    · simp only [ContactManager.importGo, hg, if_pos]
      apply ih
      have hc : dictContains (pyLower (ContactManager.derive_name ci.chat)) st.contacts
          = false := (get_chat_id_eq_none_iff _ _).mp hg
      have hmem := not_mem_keys_of_not_contains _ _ hc
      unfold keysNodup at h ⊢
      simp [ContactManager.add, ContactManager.save,
        dictInsert_of_not_contains _ _ _ hc, List.nodup_append, h, hmem]
    · simp only [ContactManager.importGo, hg, ite_false]
      exact ih st n h

/-- C3: `import_from_chats` adds a candidate only when its derived name does
not already resolve via `get_chat_id`: existing entries are preserved
verbatim (the old store is a prefix of the new one), the returned count is
exactly the number of entries actually appended, keys stay duplicate-free,
and of two candidates deriving the same name only the first is kept — as in
the concrete run where two private chats both named "Ann" import as a
single entry with the first chat's id and `imported = 1`. -/
theorem import_skips_existing_and_counts :
    (∀ (st : SysState) (chats : List ContactManager.ChatInfo),
      st.contacts <+: (ContactManager.import_from_chats st chats).2.contacts ∧
      (ContactManager.import_from_chats st chats).2.contacts.length =
        st.contacts.length + (ContactManager.import_from_chats st chats).1 ∧
      (keysNodup st.contacts →
        keysNodup (ContactManager.import_from_chats st chats).2.contacts)) ∧
    ContactManager.import_from_chats ContactManager.emptyState
      [{ chat := { id := .s "5", type := "private", first_name := some "Ann",
                   last_name := some "Lee", username := none, title := none } },
       { chat := { id := .s "7", type := "private", first_name := some "Ann",
                   last_name := none, username := some "annie", title := none } }] =
      (1, { contacts := [("ann",
              { name := "Ann", chat_id := "5", type := "private",
                title := some "Ann Lee" })],
            file := serialize [("ann",
              { name := "Ann", chat_id := "5", type := "private",
                title := some "Ann Lee" })] }) := by
  refine ⟨?_, by decide⟩
  intro st chats
  refine ⟨importGo_front chats st 0, ?_, fun h => importGo_keysNodup chats st 0 h⟩
  have h := importGo_length chats st 0
  simp only [ContactManager.import_from_chats]
  omega

theorem import_skips_existing_and_counts_witness :
    keysNodup (ContactManager.import_from_chats ContactManager.emptyState
      [{ chat := { id := .s "5", type := "private", first_name := some "Ann",
                   last_name := some "Lee", username := none, title := none } }]).2.contacts :=
  ((import_skips_existing_and_counts.1 ContactManager.emptyState
    [{ chat := { id := .s "5", type := "private", first_name := some "Ann",
                 last_name := some "Lee", username := none, title := none } }]).2.2)
    (by simp [ContactManager.emptyState, keysNodup])

theorem storeWF_insert (k : String) (v : Contact) (s : Store)
    (hv : k = pyLower v.name) :
    StoreWF s → StoreWF (dictInsert k v s) := by
  induction s with
  | nil =>
    intro _ e he
    simp [dictInsert] at he
    subst he
    exact hv
  | cons hd rest ih =>
    intro hWF e he
    by_cases h : hd.1 = k
    · simp only [dictInsert, h, if_pos] at he
      rcases List.mem_cons.mp he with he | he
      · subst he
        exact hv
      · exact hWF e (List.mem_cons_of_mem _ he)
    · simp only [dictInsert, h, ite_false] at he
      rcases List.mem_cons.mp he with he | he
      · subst he
        exact hWF e (List.mem_cons_self _ _)
      · exact ih (fun e' he' => hWF e' (List.mem_cons_of_mem _ he')) e he

theorem storeWF_delete (k : String) (s : Store) (hWF : StoreWF s) :
    StoreWF (dictDelete k s) :=
  fun e he => hWF e (List.mem_of_mem_filter he)

theorem storeWF_importGo (chats : List ContactManager.ChatInfo) :
    ∀ (st : SysState) (n : Nat), StoreWF st.contacts →
      StoreWF (ContactManager.importGo st chats n).2.contacts := by
  induction chats with
  | nil =>
    intro st n h
    exact h
  | cons ci rest ih =>
    intro st n h
    by_cases hg : ContactManager.get_chat_id st (ContactManager.derive_name ci.chat) = none
    · simp only [ContactManager.importGo, hg, if_pos]
      exact ih _ _ (storeWF_insert _ _ _ rfl h)
    · simp only [ContactManager.importGo, hg, ite_false]
      exact ih st n h

/-- C10: from the empty store, every sequence of `add`, `remove` and
`import_from_chats` keeps each entry's dict key equal to the lower-casing of
its stored `name` (the chat id field being a string by the `str(...)`
coercion applied at insertion); consequently, testing the lower-cased query
against the key and against the lower-cased name agree on every entry of
every reachable store. -/
theorem reachable_key_is_lowered_name (st : SysState) (h : Reachable st) :
    StoreWF st.contacts ∧
    (∀ (q : String) (e : String × Contact), e ∈ st.contacts →
      strIn (pyLower q) e.1 = strIn (pyLower q) (pyLower e.2.name)) := by
  have hWF : StoreWF st.contacts := by
    induction h with
    | start =>
      intro e he
      simp [ContactManager.emptyState] at he
    | addStep st n c ty ti _ ih =>
      exact storeWF_insert _ _ _ rfl ih
    | removeStep st n _ ih =>
      by_cases hc : dictContains (pyLower n) st.contacts
      · simp only [ContactManager.remove, hc, if_pos, ContactManager.save]
        exact storeWF_delete _ _ ih
      · simp only [ContactManager.remove, hc, ite_false]
        exact ih
    | importStep st chats _ ih =>
      exact storeWF_importGo chats st 0 ih
  exact ⟨hWF, fun q e he => by rw [hWF e he]⟩

theorem reachable_key_is_lowered_name_witness :
    strIn (pyLower "JO") "john" = strIn (pyLower "JO") (pyLower "John") :=
  (reachable_key_is_lowered_name
    (ContactManager.add ContactManager.emptyState "John" (.s "1") "private" none).2
    (Reachable.addStep ContactManager.emptyState "John" (.s "1") "private" none
      Reachable.start)).2 "JO"
    ("john", { name := "John", chat_id := "1", type := "private", title := none })
    (by decide)
